import Mathlib

/-!
# Verification of the thinagents core against its specification

Shallow embedding of the thinagents repository (PrabhuKiran8790/thinagents):

* `thinagents/core/tool.py` — `map_type_to_schema`, the type-to-JSON-schema
  compiler, and `generate_tool_schemas` from `thinagents/core/agent.py`,
  the local tool registry builder;
* `thinagents/core/agent.py` — `Agent.run`, the conversation loop, with the
  language model modelled as an oracle (one response per completion call),
  and `_process_individual_tool_call`, the per-call tool dispatcher;
* `thinagents/core/mcp.py` — `MCPManager`, the remote (MCP) tool manager:
  `add_servers`, `load_tools`, per-server failure counting and backoff,
  and the tool-aggregate cache.

Machine-level concerns (asyncio scheduling, thread pools, wall-clock time)
are modelled by explicit state passing: time is a natural number passed to
`load_tools`, connection outcomes are an environment function, and the
thread-pool completion order of tool results is an arbitrary permutation.
-/

/-- JSON values, as produced by `json.dumps` / JSON-schema dictionaries in
the Python source.  Numbers are integers (no claim in scope depends on
non-integral numerics). -/
inductive Json where
  | null : Json
  | jbool : Bool → Json
  | jnum : Int → Json
  | jstr : String → Json
  | arr : List Json → Json
  | obj : List (String × Json) → Json

namespace Json

/-- Escape one character the way Python's `json.dumps` does for the
characters that occur in this development. -/
def escChar (c : Char) : String :=
  if c = '"' then "\\\""
  else if c = '\\' then "\\\\"
  else if c = '\n' then "\\n"
  else if c = '\t' then "\\t"
  else if c = '\r' then "\\r"
  else String.singleton c

/-- Escape a string for inclusion in JSON output. -/
def escString (s : String) : String :=
  String.join (s.toList.map escChar)

/-- Render a JSON string literal. -/
def quote (s : String) : String :=
  "\"" ++ escString s ++ "\""

mutual

/-- `json.dumps` with Python's default separators `", "` and `": "`. -/
def dumps : Json → String
  | .null => "null"
  | .jbool true => "true"
  | .jbool false => "false"
  | .jnum n => toString n
  | .jstr s => quote s
  | .arr xs => "[" ++ dumpsList xs ++ "]"
  | .obj kvs => "\x7b" ++ dumpsObj kvs ++ "\x7d"

/-- Comma-separated rendering of array elements. -/
def dumpsList : List Json → String
  | [] => ""
  | [x] => dumps x
  | x :: xs => dumps x ++ ", " ++ dumpsList xs

/-- Comma-separated rendering of object members. -/
def dumpsObj : List (String × Json) → String
  | [] => ""
  | [(k, v)] => quote k ++ ": " ++ dumps v
  | (k, v) :: kvs => quote k ++ ": " ++ dumps v ++ ", " ++ dumpsObj kvs

end

/-- Look up a key in a JSON object (Python `d[k]` / `d.get(k)`). -/
def getKey (k : String) : Json → Option Json
  | .obj kvs => kvs.lookup k
  | _ => none

end Json

/-! ## The type universe of `map_type_to_schema` (`thinagents/core/tool.py`)

`map_type_to_schema` dispatches on a Python type annotation.  The universe
below covers every branch of the source function that is expressible as a
finite type tree: scalars, `None`, enums, `Literal`, `list`, `tuple`
(including a trailing `Ellipsis`), `set`/`frozenset`, dataclasses, `dict`,
`Union`/`Optional`, `Any`, `TypeVar`, and an `unknownT` constructor for any
other class, which the source sends to the permissive fallback.  Pydantic
models are excluded from the universe: their schema is delegated wholesale
to pydantic (`model_json_schema`), a library external to this repository.
-/

/-- A value usable inside an `enum.Enum` or `typing.Literal`: the source
classifies members as `str`, `int`, or `float` (`isinstance` checks).
The float payload is kept as an integer tag; no claim inspects it. -/
inductive PVal where
  | pstr (s : String)
  | pint (n : Int)
  | pfloat (n : Int)

/-- The runtime content of a dataclass `Field`'s `default` (resp.
`default_factory`) slot: `dataclasses.MISSING` when the user gave none,
otherwise the given value/factory.  The payload is irrelevant to
`map_type_to_schema`, which only performs an identity test on the slot. -/
inductive DefaultSlot where
  | missing
  | given

/-- The identity test `getattr(field, "default", inspect.Parameter.empty)
is inspect.Parameter.empty` from `tool.py` lines 168-172.  A dataclass
`Field` object always has `default` and `default_factory` attributes, set
to the sentinel `dataclasses.MISSING` when absent; `inspect.Parameter.empty`
is a distinct sentinel object, so the `is` test is false whether the slot
is `MISSING` or holds a user value. -/
def DefaultSlot.isParamEmpty : DefaultSlot → Bool
  | _ => false

mutual

/-- Python type annotations, as dispatched on by `map_type_to_schema`. -/
inductive PyType where
  | noneT
  | strT
  | intT
  | floatT
  | boolT
  | ellipsisT
  | anyT
  | enumT (values : List PVal)
  | literalT (values : List PVal)
  | listT (item : Option PyType)
  | tupleT (args : List PyType)
  | setT (item : Option PyType)
  | dataclassT (fields : List DCField)
  | dictT (args : Option (PyType × PyType))
  | unionT (args : List PyType)
  | finalT (arg : Option PyType)
  | typevarT (constraints : List PyType) (bound : Option PyType)
  | unknownT (nm : String)

/-- One dataclass field as seen through `dataclasses.fields`:
name, resolved type hint, and the two default slots. -/
inductive DCField where
  | mk (fname : String) (ftype : PyType) (fdefault : DefaultSlot)
      (ffactory : DefaultSlot)

end

namespace DCField

/-- Field name accessor. -/
def fname : DCField → String
  | .mk n _ _ _ => n

/-- Field type accessor. -/
def ftype : DCField → PyType
  | .mk _ t _ _ => t

/-- `default` slot accessor. -/
def fdefault : DCField → DefaultSlot
  | .mk _ _ d _ => d

/-- `default_factory` slot accessor. -/
def ffactory : DCField → DefaultSlot
  | .mk _ _ _ f => f

end DCField

/-- The identity test `a is type(None)` used by the `Union` branch. -/
def isNoneType : PyType → Bool
  | .noneT => true
  | _ => false

/-- The identity test `key_type is not str` of the mapping branch,
negated. -/
def isStrType : PyType → Bool
  | .strT => true
  | _ => false

/-- `str(key_type)` for the informational `x-key-type` annotation of the
mapping branch.  A shallow rendering: the annotation is informational only
("Non-standard, but informative" in the source) and no claim inspects it. -/
def pyTypeStr : PyType → String
  | .noneT => "<class 'NoneType'>"
  | .strT => "<class 'str'>"
  | .intT => "<class 'int'>"
  | .floatT => "<class 'float'>"
  | .boolT => "<class 'bool'>"
  | .ellipsisT => "Ellipsis"
  | .anyT => "typing.Any"
  | .enumT _ => "<enum>"
  | .literalT _ => "typing.Literal"
  | .listT _ => "typing.List"
  | .tupleT _ => "typing.Tuple"
  | .setT _ => "typing.Set"
  | .dataclassT _ => "<dataclass>"
  | .dictT _ => "typing.Dict"
  | .unionT _ => "typing.Union"
  | .finalT _ => "typing.Final"
  | .typevarT _ _ => "~T"
  | .unknownT nm => nm

/-- `isinstance(v, str)` over enum/literal members. -/
def PVal.isStr : PVal → Bool
  | .pstr _ => true
  | _ => false

/-- `isinstance(v, int)` over enum/literal members. -/
def PVal.isInt : PVal → Bool
  | .pint _ => true
  | _ => false

/-- `isinstance(v, (int, float))` over enum/literal members. -/
def PVal.isNum : PVal → Bool
  | .pint _ => true
  | .pfloat _ => true
  | _ => false

/-- The JSON rendering of an enum/literal member. -/
def PVal.toJson : PVal → Json
  | .pstr s => .jstr s
  | .pint n => .jnum n
  | .pfloat n => .jnum n

/-- Shared body of the enum and `Literal` branches (`tool.py` lines 80-88
and 106-114): classify the member list and emit an `enum` schema. -/
def enumSchema (values : List PVal) : Json :=
  let vs := Json.arr (values.map PVal.toJson)
  if values.all PVal.isStr then .obj [("type", .jstr "string"), ("enum", vs)]
  else if values.all PVal.isInt then .obj [("type", .jstr "integer"), ("enum", vs)]
  else if values.all PVal.isNum then .obj [("type", .jstr "number"), ("enum", vs)]
  else .obj [("enum", vs)]

/-- The null schema `{"type": "null"}`. -/
def nullSchema : Json := .obj [("type", .jstr "null")]

/-- `sorted` on strings (Python's lexicographic string order). -/
def insertSorted (s : String) : List String → List String
  | [] => [s]
  | t :: ts => if s ≤ t then s :: t :: ts else t :: insertSorted s ts

/-- Insertion sort implementing Python's `sorted` on a list of strings. -/
def sortStrings : List String → List String
  | [] => []
  | s :: ss => insertSorted s (sortStrings ss)

/-- `sorted(list(set(xs)))` from `tool.py` line 179: drop duplicates, then
sort.  `List.dedup` keeps the first occurrence of each element; sorting
makes the representative choice irrelevant. -/
def sortedSet (xs : List String) : List String :=
  sortStrings xs.dedup

/-- `is_optional_type` for one dataclass field (`tool.py` lines 157-166):
the field's type is a `Union` whose arguments include `NoneType`.  (The
source's second test, `get_origin(t) is Optional`, can never fire: in
CPython `get_origin` returns `Union` for `Optional[T]` and never the bare
`Optional` form.) -/
def isOptionalType (t : PyType) : Bool :=
  match t with
  | .unionT args => args.any isNoneType
  | _ => false

/-- `required` accumulation of the dataclass branch (`tool.py` lines
153-175): a field is appended when its `default` slot and its
`default_factory` slot are the sentinel `inspect.Parameter.empty` and its
type is not optional.  (Per `DefaultSlot.isParamEmpty`, the sentinel test
is false for every actual dataclass field.) -/
def dataclassRequired (fields : List DCField) : List String :=
  (fields.filter (fun f =>
      f.fdefault.isParamEmpty && f.ffactory.isParamEmpty
        && !isOptionalType f.ftype)).map DCField.fname

mutual

/-- Shallow embedding of `map_type_to_schema` (`tool.py` lines 68-258).
Branches appear in source order; `origin`-based dispatch becomes
constructor dispatch.  `map_type_to_schema(Any) = {}` is inlined where the
source recurses on a defaulted `Any` item type. -/
def map_type_to_schema : PyType → Json
  | .noneT => nullSchema
  | .strT => .obj [("type", .jstr "string")]
  | .intT => .obj [("type", .jstr "integer")]
  | .floatT => .obj [("type", .jstr "number")]
  | .boolT => .obj [("type", .jstr "boolean")]
  | .enumT values => enumSchema values
  | .literalT values => enumSchema values
  | .listT none =>
      -- `args` empty: item type defaults to `Any`, whose schema is `{}`
      .obj [("type", .jstr "array"), ("items", .obj [])]
  | .listT (some t) =>
      .obj [("type", .jstr "array"), ("items", map_type_to_schema t)]
  | .tupleT [] => .obj [("type", .jstr "array")]
  | .tupleT [t, .ellipsisT] =>
      -- `len(args) == 2 and args[1] is Ellipsis`
      .obj [("type", .jstr "array"), ("items", map_type_to_schema t)]
  | .tupleT args =>
      .obj [("type", .jstr "array"),
            ("prefixItems", .arr (mapSchemaList args)),
            ("minItems", .jnum args.length),
            ("maxItems", .jnum args.length)]
  | .setT none =>
      .obj [("type", .jstr "array"), ("items", .obj []),
            ("uniqueItems", .jbool true)]
  | .setT (some t) =>
      .obj [("type", .jstr "array"), ("items", map_type_to_schema t),
            ("uniqueItems", .jbool true)]
  | .dataclassT fields =>
      .obj [("type", .jstr "object"),
            ("properties", .obj (mapFieldProps fields)),
            ("required",
             .arr ((sortedSet (dataclassRequired fields)).map Json.jstr)),
            ("additionalProperties", .jbool false)]
  | .dictT none =>
      -- `Dict` without type args: `additionalProperties` is the schema of `Any`
      .obj [("type", .jstr "object"), ("additionalProperties", .obj [])]
  | .dictT (some (k, v)) =>
      if isStrType k then
        .obj [("type", .jstr "object"),
              ("additionalProperties", map_type_to_schema v)]
      else
        .obj [("type", .jstr "object"),
              ("additionalProperties", map_type_to_schema v),
              ("x-key-type", .jstr (pyTypeStr k))]
  | .unionT args =>
      if args.all isNoneType then
        -- `non_none_args` empty, e.g. `Union[None]`
        nullSchema
      else if args.any isNoneType then
        -- `type(None) in args`: the source's two sub-branches
        -- (`len(non_none_args) == 1` and the general case) both produce
        -- `anyOf` of the non-None schemas with the null schema appended
        .obj [("anyOf", .arr (mapSchemaNonNone args ++ [nullSchema]))]
      else
        .obj [("anyOf", .arr (mapSchemaList args))]
  | .finalT none => .obj []
  | .finalT (some t) => map_type_to_schema t
  | .anyT => .obj []
  | .typevarT (c :: cs) _ =>
      .obj [("anyOf", .arr (mapSchemaList (c :: cs)))]
  | .typevarT [] (some b) => map_type_to_schema b
  | .typevarT [] none => .obj []
  | .ellipsisT => .obj [("type", .jstr "object")]
  | .unknownT _ => .obj [("type", .jstr "object")]

/-- `[map_type_to_schema(a) for a in args]`. -/
def mapSchemaList : List PyType → List Json
  | [] => []
  | t :: ts => map_type_to_schema t :: mapSchemaList ts

/-- `[map_type_to_schema(a) for a in args if a is not type(None)]`. -/
def mapSchemaNonNone : List PyType → List Json
  | [] => []
  | t :: ts =>
      if isNoneType t then mapSchemaNonNone ts
      else map_type_to_schema t :: mapSchemaNonNone ts

/-- The `properties` dict of the dataclass branch, in field order
(dataclass field names are unique, so plain association works). -/
def mapFieldProps : List DCField → List (String × Json)
  | [] => []
  | .mk n t _ _ :: fs => (n, map_type_to_schema t) :: mapFieldProps fs

end

/-! ## Local tool registration (`generate_tool_schemas`, `agent.py` lines 23-37)

`generate_tool_schemas` walks the tool list; for a `ThinAgentsTool` it uses
the tool directly, otherwise it wraps the bare callable with the `tool`
decorator — either way one schema (`tool.tool_schema()`) is appended and
`tool_maps[tool.__name__] = tool` is assigned.  A tool is modelled by its
post-decoration name and schema. -/

/-- A registered local tool: `__name__` and the result of `tool_schema()`. -/
structure LocalTool where
  tname : String
  schemaJ : Json

/-- Python `dict` assignment `d[k] = v`: update in place when the key
exists (keeping its position), else append. -/
def dictInsert {α : Type} (k : String) (v : α) :
    List (String × α) → List (String × α)
  | [] => [(k, v)]
  | (k', v') :: rest =>
      if k' = k then (k, v) :: rest else (k', v') :: dictInsert k v rest

/-- Python `dict.pop(k, None)`: remove the entry for `k` if present. -/
def dictRemove {α : Type} (k : String) :
    List (String × α) → List (String × α)
  | [] => []
  | (k', v') :: rest =>
      if k' = k then rest else (k', v') :: dictRemove k rest

/-- Shallow embedding of `generate_tool_schemas`: accumulate the schema
list and the name-to-tool map over the input tools, in order.  There is no
duplicate-name check: `tool_maps[tool.__name__] = tool` overwrites any
earlier entry with the same name. -/
def generate_tool_schemas (tools : List LocalTool) :
    List Json × List (String × LocalTool) :=
  tools.foldl
    (fun acc t => (acc.1 ++ [t.schemaJ], dictInsert t.tname t acc.2))
    ([], [])

/-! ## The conversation loop (`Agent.run`, `agent.py` lines 144-411)

The language model is an oracle `Nat → LLMResponse`: the k-th
`litellm_completion` call of the run (main or correction) receives the
k-th oracle entry.  `json.loads` on raw tool-call arguments and the
pydantic validator `model_validate_json` are library functions external to
this repository; they enter the state as explicit function-valued
configuration fields, instantiated concretely in witnesses. -/

/-- One requested tool call, `{id, function: {name, arguments}}`. -/
structure ToolCallReq where
  id : String
  name : String
  arguments : String
  deriving DecidableEq

/-- One model response: `finish_reason`, the message `role`/`content`, and
the requested tool calls (`getattr(message, "tool_calls", None) or []`). -/
structure LLMResponse where
  finish_reason : String
  role : String
  content : String
  tool_calls : List ToolCallReq

/-- A transcript message.  Tool-role messages carry `tool_call_id` and
`name`; assistant messages carry their requested tool calls. -/
structure Msg where
  role : String
  content : String
  tool_call_id : Option String := none
  name : Option String := none
  tool_calls : List ToolCallReq := []
  deriving DecidableEq

/-- The content of a sub-agent's `ThinagentResponse`, as inspected by the
serialization chain of `_process_individual_tool_call` (`agent.py` lines
306-314).  A pydantic content is carried as its `model_dump_json()`
rendering (a pydantic library call). -/
inductive SubContent where
  | smodel (dumped : String)
  | sstr (s : String)
  | sother (j : Json)

/-- A tool invocation's return value, by the `isinstance` chain of
`agent.py` lines 305-320: sub-agent response, pydantic model (carried as
its `model_dump_json()` rendering), plain string, or any other
JSON-serializable value. -/
inductive ToolRet where
  | rsub (c : SubContent)
  | rmodel (dumped : String)
  | rstr (s : String)
  | rother (j : Json)

/-- `content_for_llm` from the tool-result serialization chain
(`agent.py` lines 305-320). -/
def serializeToolResult : ToolRet → String
  | .rsub (.smodel d) => d
  | .rsub (.sstr s) => s
  | .rsub (.sother j) => j.dumps
  | .rmodel d => d
  | .rstr s => s
  | .rother j => j.dumps

/-- A local tool invocable: parsed keyword arguments in, either a return
value or a raised exception (carried as `str(e)`). -/
def ToolFn : Type := Json → Except String ToolRet

/-- The structured-output contract (`response_format`, a pydantic model):
`model_validate_json` (ok: the parsed value; error: `str(e)` of the raised
validation error), the rendering of `model_json_schema()` used inside the
correction f-string, and the class `__name__` returned as `content_type`. -/
structure RespFormat where
  validate : String → Except String Json
  schemaStr : String
  fname : String

/-- The configuration of one `Agent`, restricted to the fields `run`
reads.  `jsonLoads` is Python's `json.loads` on raw argument text.
The `prompt` field models the plain-string path of the system-prompt
construction (a `PromptConfig` delegates to `thinagents.utils.prompts`,
outside this repository's core sources). -/
structure AgentCfg where
  name : String
  max_steps : Nat
  prompt : Option String
  instructions : List String
  response_format : Option RespFormat
  tool_maps : List (String × ToolFn)
  jsonLoads : String → Except String Json

/-- `Agent._execute_tool` (`agent.py` lines 137-142): look the name up in
`tool_maps`; raise `ValueError(f"Tool '{tool_name}' not found.")` when
absent, else invoke the tool. -/
def execute_tool (cfg : AgentCfg) (tool_name : String) (tool_args : Json) :
    Except String ToolRet :=
  match cfg.tool_maps.lookup tool_name with
  | none => .error ("Tool '" ++ tool_name ++ "' not found.")
  | some t => t tool_args

/-- The structured error content `json.dumps({"error": e, "message": m})`
used for failed tool calls (`agent.py` lines 293-298 and 336-341). -/
def errorPayload (e msg : String) : String :=
  Json.dumps (.obj [("error", .jstr e), ("message", .jstr msg)])

/-- The three ways one tool call can go, mirroring the two `try` blocks of
`_process_individual_tool_call`: the argument text fails `json.loads`;
the invocation raises; or it returns a value. -/
inductive CallOutcome where
  | parseError (e : String)
  | execError (e : String)
  | success (ret : ToolRet)

/-- Classify one requested tool call under a given configuration. -/
def classifyCall (cfg : AgentCfg) (tc : ToolCallReq) : CallOutcome :=
  match cfg.jsonLoads tc.arguments with
  | .error e => .parseError e
  | .ok args =>
      match execute_tool cfg tc.name args with
      | .error e => .execError e
      | .ok ret => .success ret

/-- `_process_individual_tool_call` (`agent.py` lines 280-342): parse the
raw arguments (failure → `{"error": ..., "message": "Failed to parse
arguments"}`), execute (failure → `{"error": ..., "message": "Tool
execution failed"}`), else serialize the result; always a tool-role
message carrying the request's `tool_call_id` and `name`. -/
def process_individual_tool_call (cfg : AgentCfg) (tc : ToolCallReq) : Msg :=
  match cfg.jsonLoads tc.arguments with
  | .error e =>
      { role := "tool", content := errorPayload e "Failed to parse arguments",
        tool_call_id := some tc.id, name := some tc.name }
  | .ok args =>
      match execute_tool cfg tc.name args with
      | .error e =>
          { role := "tool", content := errorPayload e "Tool execution failed",
            tool_call_id := some tc.id, name := some tc.name }
      | .ok ret =>
          { role := "tool", content := serializeToolResult ret,
            tool_call_id := some tc.id, name := some tc.name }

/-- The tool dispatch of one turn, in request order.  This is the
execution of the sequential branch (`agent.py` lines 374-376, taken when
`concurrent_tool_execution` is off or the batch has one element); the
concurrent branch computes the same per-call results but appends them in
thread-pool completion order, which theorems below quantify over as an
arbitrary permutation of this list. -/
def dispatch_tool_calls (cfg : AgentCfg) (tcs : List ToolCallReq) : List Msg :=
  tcs.map (process_individual_tool_call cfg)

/-- The default system prompt of `Agent.run` (`agent.py` lines 154-159), a
triple-quoted f-string with its literal indentation. -/
def defaultPrompt (name : String) : String :=
  "\n                    You are a helpful assistant. Answer the user's question to the best of your ability.\n                    You are given a name, your name is " ++ name ++ ".\n                    "

/-- System-prompt construction (`agent.py` lines 148-166), plain-string
path: the configured prompt or the default, with instructions appended
line by line when present. -/
def buildSystemPrompt (cfg : AgentCfg) : String :=
  let base := match cfg.prompt with
    | none => defaultPrompt cfg.name
    | some p => p
  match cfg.instructions with
  | [] => base
  | ins => base ++ "\n" ++ String.intercalate "\n" ins

/-- The initial transcript: system message then user message
(`agent.py` lines 168-169). -/
def initMessages (cfg : AgentCfg) (input : String) : List Msg :=
  [{ role := "system", content := buildSystemPrompt cfg },
   { role := "user", content := input }]

/-- The run's cursor through `Agent.run`'s loop: the `steps` counter, the
transcript, the number of `litellm_completion` calls made so far (the
oracle index), and per call whether tools were supplied (`true` for the
main call, which passes `tools=self.tool_schemas`; `false` for the
structured-output correction call, which passes none). -/
structure LoopState where
  steps : Nat
  messages : List Msg
  calls : Nat
  callLog : List Bool

/-- What one run returns as `content`: a plain string, or the parsed
structured output (`response_format.model_validate_json(...)`). -/
inductive RunContent where
  | cstr (s : String)
  | cparsed (j : Json)

/-- The observable part of `GenericThinagentResponse` relevant to the
claims: `content`, `content_type`, `finish_reason`. -/
structure ThinagentResponse where
  content : RunContent
  content_type : String
  finish_reason : String

/-- The outcome of one iteration of the `while` body: `done` returns from
`run` (carrying the state after the iteration's model call), `next` loops.
-/
inductive StepOut where
  | done (r : ThinagentResponse) (st : LoopState)
  | next (st : LoopState)

/-- The correction-request message appended on structured-output
validation failure (`agent.py` lines 242-247): a user-role message built
by the f-string `"The JSON is invalid: {e}. Please fix the JSON and
return it. Returned JSON: {raw}, Expected JSON: {schema}"`. -/
def correctionRequestMsg (e raw schemaStr : String) : Msg :=
  { role := "user",
    content := "The JSON is invalid: " ++ e ++
      ". Please fix the JSON and return it. Returned JSON: " ++ raw ++
      ", Expected JSON: " ++ schemaStr }

/-- The assistant message appended before tool outputs (`agent.py` lines
378-393): `message.__dict__` filtered to its public fields — role,
content, and the requested tool calls. -/
def assistantMsg (resp : LLMResponse) : Msg :=
  { role := resp.role, content := resp.content, tool_calls := resp.tool_calls }

/-- One iteration of the `while steps < max_steps` body (`agent.py` lines
171-398), to be invoked only when `steps < max_steps` holds.  The main
model call consumes oracle entry `st.calls` (tools supplied); the
structured-output correction call, when taken, consumes the next entry
(no tools supplied).

Branches, in source order: `finish_reason == "stop" and not tool_calls` —
return the content, validating it first when a structured-output contract
is configured and, on validation failure, appending the correction
request plus the correction call's reply, incrementing `steps`, and
continuing; `finish_reason == "tool_calls" or tool_calls` — dispatch the
batch, append the assistant message and one tool message per call,
increment `steps`, continue; otherwise fall through to `steps += 1`. -/
def stepOnce (cfg : AgentCfg) (oracle : Nat → LLMResponse)
    (st : LoopState) : StepOut :=
  let resp := oracle st.calls
  let stc : LoopState := { st with calls := st.calls + 1, callLog := st.callLog ++ [true] }
  if resp.finish_reason = "stop" ∧ resp.tool_calls = [] then
    match cfg.response_format with
    | none =>
        .done { content := .cstr resp.content, content_type := "str",
                finish_reason := resp.finish_reason } stc
    | some f =>
        match f.validate resp.content with
        | .ok parsed =>
            .done { content := .cparsed parsed, content_type := f.fname,
                    finish_reason := resp.finish_reason } stc
        | .error e =>
            let corr := oracle stc.calls
            .next { steps := st.steps + 1,
                    messages := st.messages ++
                      [correctionRequestMsg e resp.content f.schemaStr,
                       { role := corr.role, content := corr.content }],
                    calls := stc.calls + 1,
                    callLog := stc.callLog ++ [false] }
  else if resp.finish_reason = "tool_calls" ∨ resp.tool_calls ≠ [] then
    .next { stc with
            steps := st.steps + 1,
            messages := (st.messages ++ [assistantMsg resp]) ++
              dispatch_tool_calls cfg resp.tool_calls }
  else
    .next { stc with steps := st.steps + 1 }

/-- The sentinel returned when the loop exhausts `max_steps`
(`agent.py` lines 400-411). -/
def maxStepsResponse : ThinagentResponse :=
  { content := .cstr "Max steps reached without final answer.",
    content_type := "str", finish_reason := "max_steps_reached" }

/-- The `while steps < self.max_steps` loop, driven by fuel.  Every
continuing branch of the body increments `steps` by exactly one, so fuel
`max_steps - steps` reproduces the loop guard exactly; fuel 0 is the
guard failing, which falls through to the sentinel return. -/
def runLoop (cfg : AgentCfg) (oracle : Nat → LLMResponse) :
    Nat → LoopState → ThinagentResponse × LoopState
  | 0, st => (maxStepsResponse, st)
  | fuel + 1, st =>
      match stepOnce cfg oracle st with
      | .done r st' => (r, st')
      | .next st' => runLoop cfg oracle fuel st'

/-- `Agent.run` (`agent.py` lines 144-411).  The response-metadata locals
(`response_id`, `created_timestamp`, …) read by the sentinel return are
assigned only inside the loop body, so a run with `max_steps = 0` (loop
body never entered) raises `UnboundLocalError` at the sentinel
construction; this is modelled as the `Except.error` case. -/
def Agent.run (cfg : AgentCfg) (oracle : Nat → LLMResponse)
    (input : String) : Except String (ThinagentResponse × LoopState) :=
  if cfg.max_steps = 0 then
    .error "UnboundLocalError: local variable 'response_id' referenced before assignment"
  else
    .ok (runLoop cfg oracle cfg.max_steps
      { steps := 0, messages := initMessages cfg input, calls := 0, callLog := [] })

/-! ## The remote tool manager (`MCPManager`, `thinagents/core/mcp.py`)

`load_tools` opens a fresh connection per server and enumerates its tools.
The network is an environment function `String → ConnectOutcome` giving,
for the one load being modelled, each server id's behaviour: the
connection attempt raises (the outer `except` at line 265), the tool
enumeration `load_mcp_tools` raises after a successful connection (the
inner `except` at line 257), or a list of tool declarations is returned.
`time.time()` is an explicit `now : Nat` parameter.  The returned value of
a load additionally records which server ids a connection was attempted
for (`attempts`), the observable the backoff claims are about. -/

/-- One configured MCP server, reduced to its generated unique `id`; the
transport parameters only feed the connection attempt, which the
environment models. -/
structure ServerCfg where
  sid : String
  deriving DecidableEq

/-- One tool declaration returned by `experimental_mcp_client.load_mcp_tools`
in OpenAI format: `tool["function"]["name"]` plus the schema dict itself. -/
structure RemoteToolDecl where
  rname : String
  rschema : Json

/-- The identity of the async wrapper built by `create_tool_wrapper` for
one remote tool: the server config and original name its closure holds. -/
structure RemoteWrapper where
  serverId : String
  origName : String
  deriving DecidableEq

/-- The environment's verdict for one server during one load. -/
inductive ConnectOutcome where
  | connectFail (err : String)
  | listFail (err : String)
  | tools (decls : List RemoteToolDecl)

/-- `MCPManager`'s mutable state: the server list, the memoized
`(schemas, mappings)` aggregate, the per-server consecutive-failure
counts, the per-server cooldown deadlines (`_skip_until`), and the two
constructor parameters `failure_threshold` and `backoff_seconds`
(`mcp.py` lines 113-127). -/
structure MCPState where
  servers : List ServerCfg
  tool_cache : Option (List Json × List (String × RemoteWrapper))
  failure_counts : List (String × Nat)
  skip_until : List (String × Nat)
  failure_threshold : Nat
  backoff_seconds : Nat

/-- `MCPManager.add_servers` (`mcp.py` lines 129-133): extend the server
list and invalidate the tool cache. -/
def add_servers (st : MCPState) (new : List ServerCfg) : MCPState :=
  { st with servers := st.servers ++ new, tool_cache := none }

/-- The per-tool loop of `load_tools` (`mcp.py` lines 201-250) for one
server's declarations: append each schema, then — before inserting the
wrapper — raise `ValueError` if the name is already mapped.  The raise is
modelled by the `true` flag: it aborts the remaining declarations of this
server (the schema of the colliding tool has already been appended) and
is caught by the per-server tool-load handler. -/
def loadDecls (sid : String) (schemas : List Json)
    (mappings : List (String × RemoteWrapper)) :
    List RemoteToolDecl → List Json × List (String × RemoteWrapper) × Bool
  | [] => (schemas, mappings, false)
  | d :: ds =>
      let schemas' := schemas ++ [d.rschema]
      if (mappings.lookup d.rname).isSome then
        (schemas', mappings, true)
      else
        loadDecls sid schemas'
          (mappings ++ [(d.rname, { serverId := sid, origName := d.rname })]) ds

/-- The in-flight accumulator of one `load_tools` pass over the servers:
the aggregate being built, the failure-count and cooldown tables, and the
ids a connection was attempted for. -/
structure LoadAcc where
  schemas : List Json
  mappings : List (String × RemoteWrapper)
  counts : List (String × Nat)
  skip : List (String × Nat)
  attempts : List String

/-- The connection attempt for one server inside `load_tools` (`mcp.py`
lines 187-281).  Connection failure increments the failure count and, at
the threshold, sets the cooldown to `now + backoff_seconds`; a
tool-listing failure after a successful connection (including the
duplicate-name `ValueError`) is caught by the inner handler and leaves
the failure tables untouched; a fully successful enumeration clears both
tables for the server (`failure_counts.pop`, `skip_until.pop`). -/
def attemptServer (threshold backoff now : Nat)
    (env : String → ConnectOutcome) (acc : LoadAcc) (s : ServerCfg) :
    LoadAcc :=
    let acc := { acc with attempts := acc.attempts ++ [s.sid] }
    match env s.sid with
    | .connectFail _ =>
        let newCount := ((acc.counts.lookup s.sid).getD 0) + 1
        let counts' := dictInsert s.sid newCount acc.counts
        if threshold ≤ newCount then
          { acc with counts := counts',
                     skip := dictInsert s.sid (now + backoff) acc.skip }
        else
          { acc with counts := counts' }
    | .listFail _ => acc
    | .tools decls =>
        match loadDecls s.sid acc.schemas acc.mappings decls with
        | (schemas', mappings', dup) =>
            if dup then
              { acc with schemas := schemas', mappings := mappings' }
            else
              { acc with schemas := schemas', mappings := mappings',
                         counts := dictRemove s.sid acc.counts,
                         skip := dictRemove s.sid acc.skip }

/-- Processing of one server inside `load_tools`: the cooldown gate
`if skip_until_ts and now < skip_until_ts: continue` (`mcp.py` lines
179-185; `skip_until_ts` is `None` when absent and falsy when `0`),
followed by the connection attempt. -/
def processServer (threshold backoff now : Nat)
    (env : String → ConnectOutcome) (acc : LoadAcc) (s : ServerCfg) :
    LoadAcc :=
  match acc.skip.lookup s.sid with
  | some ts =>
      if ts ≠ 0 ∧ now < ts then acc
      else attemptServer threshold backoff now env acc s
  | none => attemptServer threshold backoff now env acc s

/-- The result of one `load_tools` call: the returned aggregate, the
state after the call, and the ids of the servers a connection was
attempted for during the call. -/
structure LoadResult where
  schemas : List Json
  mappings : List (String × RemoteWrapper)
  state : MCPState
  attempts : List String

/-- The fresh (cache-miss, non-empty server list) aggregation pass of
`load_tools` over a server list. -/
def loadPass (st : MCPState) (env : String → ConnectOutcome) (now : Nat) :
    LoadAcc :=
  st.servers.foldl
    (processServer st.failure_threshold st.backoff_seconds now env)
    { schemas := [], mappings := [], counts := st.failure_counts,
      skip := st.skip_until, attempts := [] }

/-- `MCPManager.load_tools` (`mcp.py` lines 135-284): return the cached
aggregate when present; return `([], {})` without caching when no servers
are configured; otherwise run the aggregation pass, store its tables, and
memoize its aggregate. -/
def load_tools (st : MCPState) (env : String → ConnectOutcome) (now : Nat) :
    LoadResult :=
  match st.tool_cache with
  | some c => { schemas := c.1, mappings := c.2, state := st, attempts := [] }
  | none =>
      if st.servers = [] then
        { schemas := [], mappings := [], state := st, attempts := [] }
      else
        let acc := loadPass st env now
        { schemas := acc.schemas, mappings := acc.mappings,
          state := { st with failure_counts := acc.counts,
                             skip_until := acc.skip,
                             tool_cache := some (acc.schemas, acc.mappings) },
          attempts := acc.attempts }

/-! ## Derived definitions used by the theorems -/

/-- Is this slot `dataclasses.MISSING`, i.e. no default was given? -/
def DefaultSlot.isMissing : DefaultSlot → Bool
  | .missing => true
  | .given => false

/-- The `required` list the specification prescribes for a structured
record: exactly the fields with no default, no default-factory, and a
non-`Optional` type, sorted and duplicate-free (spec §4.1).  Compare
`dataclassRequired`, the list the source actually computes via the
`inspect.Parameter.empty` sentinel test. -/
def spec_required_fields (fields : List DCField) : List String :=
  sortedSet ((fields.filter (fun f =>
      f.fdefault.isMissing && f.ffactory.isMissing
        && !isOptionalType f.ftype)).map DCField.fname)

/-- The tool-role message determined by a call's outcome: the shape
`_process_individual_tool_call` produces in each of its three paths. -/
def msgOfOutcome (o : CallOutcome) (tc : ToolCallReq) : Msg :=
  match o with
  | .parseError e =>
      { role := "tool", content := errorPayload e "Failed to parse arguments",
        tool_call_id := some tc.id, name := some tc.name }
  | .execError e =>
      { role := "tool", content := errorPayload e "Tool execution failed",
        tool_call_id := some tc.id, name := some tc.name }
  | .success ret =>
      { role := "tool", content := serializeToolResult ret,
        tool_call_id := some tc.id, name := some tc.name }

/-- The model emitted a stop signal this turn: `finish_reason == "stop"`
with no requested tool calls — the only way `Agent.run`'s loop returns. -/
def emitsStop (r : LLMResponse) : Prop :=
  r.finish_reason = "stop" ∧ r.tool_calls = []

/-- The cooldown gate of `load_tools` is active for `sid` at time `now`:
`_skip_until` holds a truthy (non-zero) deadline lying in the future. -/
def cooldownActive (skip : List (String × Nat)) (sid : String) (now : Nat) :
    Prop :=
  ∃ ts, skip.lookup sid = some ts ∧ ts ≠ 0 ∧ now < ts

/-! ## Concrete fixtures used by witnesses and counterexamples -/

/-- An oracle that never stops: every response reports `finish_reason`
`"length"` and no tool calls. -/
def oracleNeverStops : Nat → LLMResponse := fun _ =>
  { finish_reason := "length", role := "assistant", content := "",
    tool_calls := [] }

/-- An agent configured with `max_steps = 0`. -/
def cfgZeroSteps : AgentCfg :=
  { name := "a", max_steps := 0, prompt := none, instructions := [],
    response_format := none, tool_maps := [],
    jsonLoads := fun _ => .ok (.obj []) }

/-- An agent configured with `max_steps = 2` and no tools. -/
def cfgTwoSteps : AgentCfg :=
  { name := "a", max_steps := 2, prompt := none, instructions := [],
    response_format := none, tool_maps := [],
    jsonLoads := fun _ => .ok (.obj []) }

/-- A structured-output contract accepting exactly the string `"good"`. -/
def respFmtW : RespFormat :=
  { validate := fun s => if s = "good" then .ok (.obj []) else .error "bad",
    schemaStr := "SCHEMA", fname := "XModel" }

/-- An agent with the `respFmtW` structured-output contract. -/
def cfgRespFmt : AgentCfg :=
  { name := "a", max_steps := 5, prompt := none, instructions := [],
    response_format := some respFmtW, tool_maps := [],
    jsonLoads := fun _ => .ok (.obj []) }

/-- A model that first answers the invalid `"oops"`, then `"good"`. -/
def oracleOopsThenGood : Nat → LLMResponse := fun k =>
  if k = 0 then
    { finish_reason := "stop", role := "assistant", content := "oops",
      tool_calls := [] }
  else
    { finish_reason := "stop", role := "assistant", content := "good",
      tool_calls := [] }

/-- An initial loop cursor with an empty transcript. -/
def st0W : LoopState := { steps := 0, messages := [], calls := 0, callLog := [] }

/-- A local tool returning the string `"5"`. -/
def toolAdd : ToolFn := fun _ => .ok (.rstr "5")

/-- An agent knowing only the tool `"add"`. -/
def cfgOneTool : AgentCfg :=
  { name := "a", max_steps := 5, prompt := none, instructions := [],
    response_format := none, tool_maps := [("add", toolAdd)],
    jsonLoads := fun _ => .ok (.obj []) }

/-- A request for the unregistered tool name `"ghost"`. -/
def tcGhost : ToolCallReq := { id := "call_1", name := "ghost", arguments := "" }

/-- A model that always requests the `"ghost"` tool call. -/
def oracleGhostCall : Nat → LLMResponse := fun _ =>
  { finish_reason := "tool_calls", role := "assistant", content := "",
    tool_calls := [tcGhost] }


/-- A local tool whose invocation raises `boom`. -/
def toolBoom : ToolFn := fun _ => .error "boom"

/-- An agent with a working tool `"add"` and a raising tool `"boom"`;
argument text `"bad"` fails `json.loads`. -/
def cfgDispatch : AgentCfg :=
  { name := "a", max_steps := 5, prompt := none, instructions := [],
    response_format := none,
    tool_maps := [("add", toolAdd), ("boom", toolBoom)],
    jsonLoads := fun s => if s = "bad" then .error "parsefail" else .ok (.obj []) }

/-- A batch of three tool calls whose middle call will raise. -/
def tcsW : List ToolCallReq :=
  [{ id := "c1", name := "add", arguments := "" },
   { id := "c2", name := "boom", arguments := "" },
   { id := "c3", name := "add", arguments := "" }]


/-- A state whose tool cache is warm while server `s1`'s cooldown (set to
time 10) has already expired. -/
def stWarmCache : MCPState :=
  { servers := [⟨"s1"⟩], tool_cache := some ([], []),
    failure_counts := [("s1", 3)], skip_until := [("s1", 10)],
    failure_threshold := 3, backoff_seconds := 60 }

/-- A cold-cache state whose server `s1` is cooling down until time 70. -/
def stCooling : MCPState :=
  { servers := [⟨"s1"⟩], tool_cache := none, failure_counts := [("s1", 3)],
    skip_until := [("s1", 70)], failure_threshold := 3, backoff_seconds := 60 }

/-- A cold-cache state whose server `s1`'s cooldown expired at time 10. -/
def stExpired : MCPState :=
  { servers := [⟨"s1"⟩], tool_cache := none, failure_counts := [],
    skip_until := [("s1", 10)], failure_threshold := 3, backoff_seconds := 60 }

/-- A cold-cache state whose server `s1` has failed twice with threshold
three: one more connection failure triggers the backoff window. -/
def stAtThreshold : MCPState :=
  { servers := [⟨"s1"⟩], tool_cache := none, failure_counts := [("s1", 2)],
    skip_until := [], failure_threshold := 3, backoff_seconds := 60 }

/-- A state with a populated tool cache. -/
def stCachedW : MCPState :=
  { servers := [⟨"s1"⟩], tool_cache := some ([Json.obj []], [("t", ⟨"s1", "t"⟩)]),
    failure_counts := [], skip_until := [], failure_threshold := 3,
    backoff_seconds := 60 }

/-- An environment in which every connection attempt is refused. -/
def envRefuse : String → ConnectOutcome := fun _ => .connectFail "refused"

/-! ## Theorems: the type-schema compiler -/

/-- Computation rule for the `is` test on `NoneType`. -/
theorem isNoneType_noneT : isNoneType .noneT = true := rfl

/-- The `required` accumulation of the dataclass branch never appends a
field: the sentinel test `field.default is inspect.Parameter.empty`
compares against the wrong sentinel (dataclass fields hold
`dataclasses.MISSING`) and is false for every field, so the conjunction
guarding `required.append` is never satisfied. -/
theorem dataclassRequired_eq_nil (fields : List DCField) :
    dataclassRequired fields = [] := by
  simp [dataclassRequired, DefaultSlot.isParamEmpty, List.filter_eq_nil_iff]

/-- Every branch of the shared enum/`Literal` classifier yields an object
schema. -/
theorem enumSchema_obj (vs : List PVal) : ∃ kvs, enumSchema vs = Json.obj kvs := by
  unfold enumSchema
  repeat' split
  all_goals exact ⟨_, rfl⟩

/-- Strong induction on the size of the type tree: every branch of
`map_type_to_schema` returns a JSON object. -/
theorem map_obj_aux : ∀ (n : Nat) (t : PyType), sizeOf t ≤ n →
    ∃ kvs, map_type_to_schema t = Json.obj kvs := by
  intro n
  induction n with
  | zero =>
      intro t ht
      cases t <;> simp_all
  | succ n ih =>
      intro t ht
      rw [map_type_to_schema.eq_def]
      split
      all_goals try exact ⟨_, rfl⟩
      case _ vs => exact enumSchema_obj vs
      case _ vs => exact enumSchema_obj vs
      case _ k v => split <;> exact ⟨_, rfl⟩
      case _ args => split <;> [exact ⟨_, rfl⟩; split <;> exact ⟨_, rfl⟩]
      case _ t' =>
        have hs : sizeOf t' ≤ n := by simp at ht; omega
        exact ih t' hs
      case _ b =>
        have hs : sizeOf b ≤ n := by simp at ht; omega
        exact ih b hs

/-- C7: for every type `T` that is Optional-of-`T` — a union of `T` with
the explicit absence marker `None` (in CPython, `Optional[T]` presents as
`Union` with argument list `(T, NoneType)`) — the compiled schema equals
`{anyOf: [schema(T), {type: null}]}`.  The hypothesis `isNoneType t =
false` states that `T` is not itself the absence marker, as CPython's
`Union` would collapse `Union[None, None]` before the compiler sees it. -/
theorem optional_type_schema_anyof_null (t : PyType)
    (h : isNoneType t = false) :
    map_type_to_schema (.unionT [t, .noneT])
      = .obj [("anyOf", .arr [map_type_to_schema t, nullSchema])] := by
  simp [map_type_to_schema, mapSchemaNonNone, h, isNoneType_noneT]

/-- Witness for `optional_type_schema_anyof_null` at `T = int`. -/
theorem optional_type_schema_anyof_null_witness :
    isNoneType .intT = false ∧
    map_type_to_schema (.unionT [.intT, .noneT])
      = .obj [("anyOf", .arr [map_type_to_schema .intT, nullSchema])] :=
  ⟨rfl, optional_type_schema_anyof_null .intT rfl⟩

/-- C8: the schema compiler is total over the modelled universe of type
declarations — the source function contains no `raise` and every branch
returns a value, so its embedding returns an object schema for every
input — and an unrecognized type degrades to the permissive fallback
`{"type": "object"}` instead of failing, so schema compilation cannot
block tool registration. -/
theorem schema_compiler_total_with_permissive_fallback :
    (∀ t : PyType, ∃ kvs, map_type_to_schema t = Json.obj kvs) ∧
    (∀ nm, map_type_to_schema (.unknownT nm)
        = Json.obj [("type", .jstr "object")]) :=
  ⟨fun t => map_obj_aux (sizeOf t) t (Nat.le_refl _), fun _ => rfl⟩

/-- C2: the `required` list of a compiled dataclass schema is ALWAYS
empty, regardless of how many fields lack defaults — the source tests the
`default`/`default_factory` slots against `inspect.Parameter.empty`, but
`dataclasses.fields` yields slots holding `dataclasses.MISSING` (or a
user value), never that sentinel, so no field ever qualifies.  The claim
(and spec §4.1) prescribes exactly the R fields with no default, no
default-factory, and a non-Optional type: on the record `P` with the one
required field `x: int`, the spec-prescribed list is `["x"]` while the
code produces `[]`.  The code contradicts the evident intent of its own
comments ("More robust check for default"). -/
theorem dataclass_required_list_always_empty :
    (∀ fields, Json.getKey "required" (map_type_to_schema (.dataclassT fields))
        = some (.arr [])) ∧
    spec_required_fields [DCField.mk "x" .intT .missing .missing] = ["x"] := by
  constructor
  · intro fields
    simp [map_type_to_schema, Json.getKey, dataclassRequired_eq_nil, sortedSet,
          sortStrings, List.lookup]
  · rfl

/-! ## Theorems: tool registration and name collisions -/

/-- Python `dict` lookup after assignment: the assigned key maps to the
new value, every other key is untouched. -/
theorem lookup_dictInsert {α : Type} (k k' : String) (v : α)
    (m : List (String × α)) :
    (dictInsert k v m).lookup k' = if k' = k then some v else m.lookup k' := by
  induction m with
  | nil =>
      by_cases h : k' = k
      · simp [dictInsert, List.lookup_cons, h]
      · simp [dictInsert, List.lookup_cons, h, beq_false_of_ne h]
  | cons kv rest ih =>
      obtain ⟨a, b⟩ := kv
      by_cases hak : a = k
      · subst hak
        by_cases h : k' = a
        · simp [dictInsert, List.lookup_cons, h]
        · simp [dictInsert, List.lookup_cons, h, beq_false_of_ne h]
      · by_cases h : k' = a
        · subst h
          simp [dictInsert, hak, List.lookup_cons, ih]
        · simp [dictInsert, hak, List.lookup_cons, beq_false_of_ne h, ih]

/-- Python `dict.pop(k)` leaves lookups of other keys unchanged. -/
theorem lookup_dictRemove_ne {α : Type} (k k' : String)
    (m : List (String × α)) (h : k' ≠ k) :
    (dictRemove k m).lookup k' = m.lookup k' := by
  induction m with
  | nil => rfl
  | cons kv rest ih =>
      obtain ⟨a, b⟩ := kv
      by_cases hak : a = k
      · subst hak
        simp [dictRemove, List.lookup_cons, beq_false_of_ne h]
      · by_cases hk' : k' = a
        · subst hk'
          simp [dictRemove, hak, List.lookup_cons]
        · simp [dictRemove, hak, List.lookup_cons, beq_false_of_ne hk', ih]

/-- Unfolding `generate_tool_schemas` over its last tool. -/
theorem generate_tool_schemas_append (tools : List LocalTool) (t : LocalTool) :
    generate_tool_schemas (tools ++ [t])
      = ((generate_tool_schemas tools).1 ++ [t.schemaJ],
         dictInsert t.tname t (generate_tool_schemas tools).2) := by
  simp [generate_tool_schemas, List.foldl_append]

/-- The tool map built by `generate_tool_schemas` binds each name to the
LAST tool in the input list carrying that name: later registrations
silently overwrite earlier ones. -/
theorem gts_lookup (tools : List LocalTool) (name : String) :
    ((generate_tool_schemas tools).2).lookup name
      = tools.reverse.find? (fun t => t.tname == name) := by
  induction tools using List.reverseRecOn with
  | nil => rfl
  | append_singleton ts t ih =>
      rw [generate_tool_schemas_append, lookup_dictInsert]
      rw [List.reverse_append]
      simp only [List.reverse_singleton, List.singleton_append, List.find?_cons]
      by_cases h : name = t.tname
      · simp [h]
      · have hb : (t.tname == name) = false :=
          beq_false_of_ne (fun hh => h hh.symm)
        simp [h, hb, ih]

/-- The schema list emitted by `generate_tool_schemas` has one entry per
input tool — duplicated names contribute duplicated schemas. -/
theorem gts_schema_count (tools : List LocalTool) :
    (generate_tool_schemas tools).1 = tools.map LocalTool.schemaJ := by
  induction tools using List.reverseRecOn with
  | nil => rfl
  | append_singleton ts t ih => simp [generate_tool_schemas_append, ih]

/-- C1 counterexample: registering two distinct local tools that share
the name `"dup"` does NOT fail — `generate_tool_schemas` returns
normally, the tool map holds only the LATER tool (the earlier one is
silently overwritten), and both schemas are emitted.  Building the tool
map is a silent overwrite, not an error. -/
theorem duplicate_tool_names_do_not_fail :
    (generate_tool_schemas
        [⟨"dup", .obj [("v", .jnum 1)]⟩, ⟨"dup", .obj [("v", .jnum 2)]⟩]).2
      = [("dup", ⟨"dup", .obj [("v", .jnum 2)]⟩)] ∧
    (generate_tool_schemas
        [⟨"dup", .obj [("v", .jnum 1)]⟩, ⟨"dup", .obj [("v", .jnum 2)]⟩]).1
      = [.obj [("v", .jnum 1)], .obj [("v", .jnum 2)]] ∧
    (⟨"dup", .obj [("v", .jnum 1)]⟩ : LocalTool) ≠ ⟨"dup", .obj [("v", .jnum 2)]⟩ := by
  refine ⟨rfl, rfl, ?_⟩
  simp

/-- C1 amended: duplicate tool names are not a load-time error.  Locally,
`generate_tool_schemas` binds each name to the last tool registered with
it (silent overwrite; both schemas are still emitted).  Remotely,
`MCPManager.load_tools` raises `ValueError` on a duplicate name, but the
raise happens inside the per-server tool-loading `try`, whose
`except Exception` handler swallows it: the load returns normally, the
first registration of the name is kept, the colliding tool's schema has
already leaked into the schema list, the rest of that server's tools are
dropped, and loading continues with the remaining servers — shown here on
a server exposing `dup` twice followed by `other`, with a second server
exposing `t2`. -/
theorem duplicate_tool_name_last_wins_and_remote_collision_is_caught :
    (∀ (tools : List LocalTool) (name : String),
        ((generate_tool_schemas tools).2).lookup name
          = tools.reverse.find? (fun t => t.tname == name)) ∧
    ((load_tools
        { servers := [⟨"s1"⟩, ⟨"s2"⟩], tool_cache := none, failure_counts := [],
          skip_until := [], failure_threshold := 3, backoff_seconds := 60 }
        (fun sid =>
          if sid = "s1" then
            .tools [⟨"dup", .obj [("s", .jnum 1)]⟩, ⟨"dup", .obj [("s", .jnum 2)]⟩,
                    ⟨"other", .obj [("s", .jnum 3)]⟩]
          else .tools [⟨"t2", .obj [("s", .jnum 4)]⟩])
        0).mappings
      = [("dup", ⟨"s1", "dup"⟩), ("t2", ⟨"s2", "t2"⟩)] ∧
     (load_tools
        { servers := [⟨"s1"⟩, ⟨"s2"⟩], tool_cache := none, failure_counts := [],
          skip_until := [], failure_threshold := 3, backoff_seconds := 60 }
        (fun sid =>
          if sid = "s1" then
            .tools [⟨"dup", .obj [("s", .jnum 1)]⟩, ⟨"dup", .obj [("s", .jnum 2)]⟩,
                    ⟨"other", .obj [("s", .jnum 3)]⟩]
          else .tools [⟨"t2", .obj [("s", .jnum 4)]⟩])
        0).schemas
      = [.obj [("s", .jnum 1)], .obj [("s", .jnum 2)], .obj [("s", .jnum 4)]]) :=
  ⟨gts_lookup, rfl, rfl⟩

/-! ## Theorems: the conversation loop -/

/-- C3: when a configured structured-output contract fails to validate
against the model's final content, the engine appends exactly one
correction-request message (embedding the parse error and the expected
schema, followed only by the correction call's reply), makes exactly one
additional model call without supplying tools (the call log grows by the
main call `true` and the single correction call `false`), consumes
exactly one step, and continues the loop rather than returning — all
read off the successor state, which the next iteration of the loop then
processes normally. -/
theorem structured_output_failure_one_correction (cfg : AgentCfg)
    (oracle : Nat → LLMResponse) (st : LoopState) (f : RespFormat) (e : String)
    (hfmt : cfg.response_format = some f)
    (hstop : (oracle st.calls).finish_reason = "stop")
    (hnotc : (oracle st.calls).tool_calls = [])
    (hval : f.validate (oracle st.calls).content = .error e) :
    stepOnce cfg oracle st = .next
      { steps := st.steps + 1,
        messages := st.messages ++
          [correctionRequestMsg e (oracle st.calls).content f.schemaStr,
           { role := (oracle (st.calls + 1)).role,
             content := (oracle (st.calls + 1)).content }],
        calls := st.calls + 2,
        callLog := st.callLog ++ [true, false] } := by
  simp [stepOnce, hfmt, hstop, hnotc, hval]

/-- C10: a requested tool call whose name is not in the tool map does not
abort the conversation: the `ValueError` raised by `_execute_tool` is
caught inside `_process_individual_tool_call` and converted into a
tool-role result for that `tool_call_id` whose content is the JSON object
with the lookup error and the message `"Tool execution failed"`, and the
loop continues (`StepOut.next`) to the next model call. -/
theorem unknown_tool_call_becomes_error_result (cfg : AgentCfg)
    (oracle : Nat → LLMResponse) (st : LoopState) (tc : ToolCallReq)
    (args : Json)
    (hmem : tc ∈ (oracle st.calls).tool_calls)
    (hargs : cfg.jsonLoads tc.arguments = .ok args)
    (hmiss : cfg.tool_maps.lookup tc.name = none) :
    ∃ st', stepOnce cfg oracle st = .next st' ∧
      st'.steps = st.steps + 1 ∧
      ({ role := "tool",
         content := errorPayload ("Tool '" ++ tc.name ++ "' not found.")
           "Tool execution failed",
         tool_call_id := some tc.id, name := some tc.name } : Msg)
        ∈ st'.messages := by
  have hne : (oracle st.calls).tool_calls ≠ [] := by
    intro h; rw [h] at hmem; exact absurd hmem (List.not_mem_nil tc)
  refine ⟨{ steps := st.steps + 1,
            messages := (st.messages ++ [assistantMsg (oracle st.calls)]) ++
              dispatch_tool_calls cfg (oracle st.calls).tool_calls,
            calls := st.calls + 1,
            callLog := st.callLog ++ [true] }, ?_, rfl, ?_⟩
  · simp only [stepOnce]
    rw [if_neg (by intro h; exact hne h.2), if_pos (Or.inr hne)]
  · simp only [List.mem_append]
    right
    simp only [dispatch_tool_calls, List.mem_map]
    refine ⟨tc, hmem, ?_⟩
    simp [process_individual_tool_call, hargs, execute_tool, hmiss]

/-- With no stop signal this turn, one iteration advances `steps` and
`calls` by exactly one and supplies tools on its single model call. -/
theorem stepOnce_noStop (cfg : AgentCfg) (oracle : Nat → LLMResponse)
    (st : LoopState) (h : ¬ emitsStop (oracle st.calls)) :
    ∃ msgs, stepOnce cfg oracle st = .next
      { steps := st.steps + 1, messages := msgs,
        calls := st.calls + 1, callLog := st.callLog ++ [true] } := by
  simp only [stepOnce]
  rw [if_neg (show ¬((oracle st.calls).finish_reason = "stop" ∧
      (oracle st.calls).tool_calls = []) from h)]
  by_cases h2 : (oracle st.calls).finish_reason = "tool_calls" ∨
      (oracle st.calls).tool_calls ≠ []
  · rw [if_pos h2]
    exact ⟨_, rfl⟩
  · rw [if_neg h2]
    exact ⟨_, rfl⟩

/-- With no stop signal on any turn, `fuel` iterations of the loop
consume exactly `fuel` steps and `fuel` tool-supplied model calls and end
at the sentinel. -/
theorem runLoop_noStop (cfg : AgentCfg) (oracle : Nat → LLMResponse)
    (h : ∀ k, ¬ emitsStop (oracle k)) :
    ∀ (fuel : Nat) (st : LoopState),
      ∃ msgs, runLoop cfg oracle fuel st
        = (maxStepsResponse,
           { steps := st.steps + fuel, messages := msgs,
             calls := st.calls + fuel,
             callLog := st.callLog ++ List.replicate fuel true }) := by
  intro fuel
  induction fuel with
  | zero =>
      intro st
      exact ⟨st.messages, by simp [runLoop]⟩
  | succ n ih =>
      intro st
      obtain ⟨msgs, hstep⟩ := stepOnce_noStop cfg oracle st (h st.calls)
      obtain ⟨msgs', hrest⟩ := ih
        { steps := st.steps + 1, messages := msgs,
          calls := st.calls + 1, callLog := st.callLog ++ [true] }
      refine ⟨msgs', ?_⟩
      rw [runLoop, hstep]
      dsimp only
      rw [hrest]
      simp only [Prod.mk.injEq, LoopState.mk.injEq, List.replicate_succ,
                 List.append_assoc, List.singleton_append]
      refine ⟨trivial, by omega, trivial, by omega, trivial⟩

/-- C4 amended: for every conversation in which the model never emits a
stop signal and `max_steps ≥ 1`, `Agent.run` returns (rather than
raising) the budget-exhausted sentinel — content `"Max steps reached
without final answer."`, finish reason `"max_steps_reached"` — after
exactly `max_steps` turns: `steps` ends at `max_steps`, exactly
`max_steps` model calls are made, all with tools supplied.  (The
`max_steps ≥ 1` proviso is forced by the counterexample
`run_with_zero_max_steps_raises`.) -/
theorem run_exhausts_step_budget (cfg : AgentCfg)
    (oracle : Nat → LLMResponse) (input : String)
    (hpos : cfg.max_steps ≠ 0)
    (h : ∀ k, ¬ emitsStop (oracle k)) :
    ∃ final, Agent.run cfg oracle input = .ok (maxStepsResponse, final) ∧
      final.steps = cfg.max_steps ∧ final.calls = cfg.max_steps ∧
      final.callLog = List.replicate cfg.max_steps true := by
  obtain ⟨msgs, hloop⟩ := runLoop_noStop cfg oracle h cfg.max_steps
    { steps := 0, messages := initMessages cfg input, calls := 0, callLog := [] }
  simp only [Nat.zero_add, List.nil_append] at hloop
  refine ⟨{ steps := cfg.max_steps, messages := msgs, calls := cfg.max_steps,
            callLog := List.replicate cfg.max_steps true }, ?_, rfl, rfl, rfl⟩
  rw [Agent.run, if_neg hpos, hloop]

/-- C4 counterexample: with `max_steps = 0` the loop body never runs, so
the sentinel return reads the response-metadata locals before any
assignment and `Agent.run` raises `UnboundLocalError` instead of
returning the budget-exhausted result — even though the model (never
consulted) never emits a stop signal. -/
theorem run_with_zero_max_steps_raises :
    Agent.run cfgZeroSteps oracleNeverStops "hi"
      = .error "UnboundLocalError: local variable 'response_id' referenced before assignment" ∧
    (∀ k : Nat, ¬ emitsStop (oracleNeverStops k)) := by
  constructor
  · rfl
  · intro k hs
    exact absurd hs.1 (by simp [oracleNeverStops])

/-- Witness for `run_exhausts_step_budget`: a 2-step budget against a
model that always reports `"length"`. -/
theorem run_exhausts_step_budget_witness :
    cfgTwoSteps.max_steps ≠ 0 ∧
    (∃ final, Agent.run cfgTwoSteps oracleNeverStops "hi"
        = .ok (maxStepsResponse, final) ∧
      final.steps = cfgTwoSteps.max_steps ∧
      final.calls = cfgTwoSteps.max_steps ∧
      final.callLog = List.replicate cfgTwoSteps.max_steps true) :=
  ⟨by simp [cfgTwoSteps],
   run_exhausts_step_budget cfgTwoSteps oracleNeverStops "hi"
     (by simp [cfgTwoSteps])
     (fun k hs => absurd hs.1 (by simp [oracleNeverStops]))⟩

/-- Witness for `structured_output_failure_one_correction`: the invalid
first answer `"oops"` triggers exactly one correction message and one
tool-less correction call. -/
theorem structured_output_failure_one_correction_witness :
    cfgRespFmt.response_format = some respFmtW ∧
    (oracleOopsThenGood st0W.calls).finish_reason = "stop" ∧
    (oracleOopsThenGood st0W.calls).tool_calls = [] ∧
    respFmtW.validate (oracleOopsThenGood st0W.calls).content = .error "bad" ∧
    stepOnce cfgRespFmt oracleOopsThenGood st0W = .next
      { steps := 1,
        messages := [correctionRequestMsg "bad" "oops" respFmtW.schemaStr,
                     { role := "assistant", content := "good" }],
        calls := 2, callLog := [true, false] } :=
  ⟨rfl, rfl, rfl, rfl, by
    have h := structured_output_failure_one_correction cfgRespFmt
      oracleOopsThenGood st0W respFmtW "bad" rfl rfl rfl rfl
    simpa [st0W, oracleOopsThenGood] using h⟩

/-- Witness for `unknown_tool_call_becomes_error_result` on the
unregistered name `"ghost"`. -/
theorem unknown_tool_call_becomes_error_result_witness :
    tcGhost ∈ (oracleGhostCall st0W.calls).tool_calls ∧
    cfgOneTool.jsonLoads tcGhost.arguments = .ok (.obj []) ∧
    cfgOneTool.tool_maps.lookup tcGhost.name = none ∧
    (∃ st', stepOnce cfgOneTool oracleGhostCall st0W = .next st' ∧
      st'.steps = st0W.steps + 1 ∧
      ({ role := "tool",
         content := errorPayload ("Tool '" ++ tcGhost.name ++ "' not found.")
           "Tool execution failed",
         tool_call_id := some tcGhost.id, name := some tcGhost.name } : Msg)
        ∈ st'.messages) :=
  ⟨List.mem_singleton.mpr rfl, rfl, rfl,
   unknown_tool_call_becomes_error_result cfgOneTool oracleGhostCall st0W
     tcGhost (.obj []) (List.mem_singleton.mpr rfl) rfl rfl⟩

/-! ## Theorems: the concurrent dispatcher -/

/-- `_process_individual_tool_call` produces exactly the message
determined by the call's outcome classification. -/
theorem process_eq_msgOfOutcome (cfg : AgentCfg) (tc : ToolCallReq) :
    process_individual_tool_call cfg tc
      = msgOfOutcome (classifyCall cfg tc) tc := by
  rcases h : cfg.jsonLoads tc.arguments with e | args
  · simp [process_individual_tool_call, classifyCall, msgOfOutcome, h]
  · rcases h2 : execute_tool cfg tc.name args with e | ret <;>
      simp [process_individual_tool_call, classifyCall, msgOfOutcome, h, h2]

/-- Every dispatched result carries its request's `tool_call_id`. -/
theorem msgOfOutcome_id (o : CallOutcome) (tc : ToolCallReq) :
    (msgOfOutcome o tc).tool_call_id = some tc.id := by
  cases o <;> rfl

/-- With pairwise-distinct `tool_call_id`s, a member of the batch sharing
the `id` of the `i`-th request is the `i`-th request. -/
theorem id_unique (tcs : List ToolCallReq)
    (hids : (tcs.map ToolCallReq.id).Nodup)
    {tc : ToolCallReq} (htc : tc ∈ tcs) (i : Fin tcs.length)
    (hid : tc.id = (tcs.get i).id) : tc = tcs.get i := by
  obtain ⟨k, hk⟩ := List.get_of_mem htc
  subst hk
  have hinj := List.nodup_iff_injective_get.mp hids
  have hlen : (tcs.map ToolCallReq.id).length = tcs.length := List.length_map _ _
  have h1 : (tcs.map ToolCallReq.id).get ⟨k.1, by omega⟩
      = (tcs.map ToolCallReq.id).get ⟨i.1, by omega⟩ := by
    simp [List.getElem_map]
    exact hid
  have := hinj h1
  have hki : k.1 = i.1 := by
    simpa using congrArg Fin.val this
  congr 1
  exact Fin.ext hki

/-- C5: for every batch of K requested tool calls in one turn in which
call `j` raises (an argument parse error or an invocable exception) and
every other call succeeds, the dispatcher produces exactly K results —
and this holds of every completion order `out` (any permutation of the
per-call results, as appended by `as_completed` in the concurrent
branch): each request's result appears in `out`; any result carrying call
`j`'s `tool_call_id` holds the structured error payload for `j`'s
failure; any result carrying another call's `tool_call_id` holds that
call's real serialized output; and every result is the processing of one
of the requests, keeping that request's `tool_call_id`, so results map
back correctly regardless of completion order. -/
theorem dispatch_isolated (cfg : AgentCfg)
    (tcs : List ToolCallReq) (out : List Msg) (j : Fin tcs.length) (e : String)
    (hperm : out.Perm (dispatch_tool_calls cfg tcs))
    (hids : (tcs.map ToolCallReq.id).Nodup)
    (hfail : classifyCall cfg (tcs.get j) = .parseError e ∨
             classifyCall cfg (tcs.get j) = .execError e)
    (hok : ∀ i : Fin tcs.length, i ≠ j →
             ∃ ret, classifyCall cfg (tcs.get i) = .success ret) :
    out.length = tcs.length ∧
    (∀ i : Fin tcs.length,
       msgOfOutcome (classifyCall cfg (tcs.get i)) (tcs.get i) ∈ out) ∧
    (∀ m ∈ out, m.tool_call_id = some (tcs.get j).id →
       m.content = errorPayload e "Failed to parse arguments" ∨
       m.content = errorPayload e "Tool execution failed") ∧
    (∀ i : Fin tcs.length, i ≠ j → ∀ m ∈ out,
       m.tool_call_id = some (tcs.get i).id →
       ∃ ret, classifyCall cfg (tcs.get i) = .success ret ∧
         m.content = serializeToolResult ret) ∧
    (∀ m ∈ out, ∃ tc ∈ tcs, m = process_individual_tool_call cfg tc ∧
       m.tool_call_id = some tc.id) := by
  have hmem_out : ∀ m ∈ out, ∃ tc ∈ tcs,
      m = process_individual_tool_call cfg tc := by
    intro m hm
    have : m ∈ dispatch_tool_calls cfg tcs := hperm.mem_iff.mp hm
    obtain ⟨tc, htc, hpm⟩ := List.mem_map.mp this
    exact ⟨tc, htc, hpm.symm⟩
  refine ⟨?_, ?_, ?_, ?_, ?_⟩
  · rw [hperm.length_eq]
    simp [dispatch_tool_calls]
  · intro i
    rw [← process_eq_msgOfOutcome]
    exact hperm.mem_iff.mpr
      (List.mem_map_of_mem _ (tcs.get_mem i.1 i.2))
  · intro m hm hid
    obtain ⟨tc, htc, hpm⟩ := hmem_out m hm
    have hmid : m.tool_call_id = some tc.id := by
      rw [hpm, process_eq_msgOfOutcome]
      exact msgOfOutcome_id _ _
    have : tc.id = (tcs.get j).id := by
      rw [hmid] at hid
      exact Option.some.inj hid
    have htj : tc = tcs.get j := id_unique tcs hids htc j this
    subst htj
    rcases hfail with hf | hf
    · left
      rw [hpm, process_eq_msgOfOutcome, hf]
      rfl
    · right
      rw [hpm, process_eq_msgOfOutcome, hf]
      rfl
  · intro i hij m hm hid
    obtain ⟨tc, htc, hpm⟩ := hmem_out m hm
    have hmid : m.tool_call_id = some tc.id := by
      rw [hpm, process_eq_msgOfOutcome]
      exact msgOfOutcome_id _ _
    have : tc.id = (tcs.get i).id := by
      rw [hmid] at hid
      exact Option.some.inj hid
    have hti : tc = tcs.get i := id_unique tcs hids htc i this
    subst hti
    obtain ⟨ret, hret⟩ := hok i hij
    refine ⟨ret, hret, ?_⟩
    rw [hpm, process_eq_msgOfOutcome, hret]
    rfl
  · intro m hm
    obtain ⟨tc, htc, hpm⟩ := hmem_out m hm
    refine ⟨tc, htc, hpm, ?_⟩
    rw [hpm, process_eq_msgOfOutcome]
    exact msgOfOutcome_id _ _

/-- Witness for `dispatch_isolated`: three calls, the middle one
(`"boom"`) raises, evaluated at the identity completion order. -/
theorem dispatch_isolated_witness :
    (tcsW.map ToolCallReq.id).Nodup ∧
    classifyCall cfgDispatch (tcsW.get ⟨1, by decide⟩) = .execError "boom" ∧
    ((dispatch_tool_calls cfgDispatch tcsW).length = tcsW.length ∧
     (∀ i : Fin tcsW.length,
        msgOfOutcome (classifyCall cfgDispatch (tcsW.get i)) (tcsW.get i)
          ∈ dispatch_tool_calls cfgDispatch tcsW) ∧
     (∀ m ∈ dispatch_tool_calls cfgDispatch tcsW,
        m.tool_call_id = some (tcsW.get ⟨1, by decide⟩).id →
        m.content = errorPayload "boom" "Failed to parse arguments" ∨
        m.content = errorPayload "boom" "Tool execution failed") ∧
     (∀ i : Fin tcsW.length, i ≠ ⟨1, by decide⟩ →
        ∀ m ∈ dispatch_tool_calls cfgDispatch tcsW,
        m.tool_call_id = some (tcsW.get i).id →
        ∃ ret, classifyCall cfgDispatch (tcsW.get i) = .success ret ∧
          m.content = serializeToolResult ret) ∧
     (∀ m ∈ dispatch_tool_calls cfgDispatch tcsW,
        ∃ tc ∈ tcsW, m = process_individual_tool_call cfgDispatch tc ∧
          m.tool_call_id = some tc.id)) :=
  ⟨by decide, rfl,
   dispatch_isolated cfgDispatch tcsW (dispatch_tool_calls cfgDispatch tcsW)
     ⟨1, by decide⟩ "boom" (List.Perm.refl _) (by decide) (Or.inr rfl)
     (by
       intro i hij
       rcases i with ⟨iv, hiv⟩
       match iv, hiv with
       | 0, _ => exact ⟨.rstr "5", rfl⟩
       | 1, h => exact absurd rfl hij
       | 2, _ => exact ⟨.rstr "5", rfl⟩)⟩

/-! ## Theorems: the remote tool manager -/

/-- C9: the remote tool aggregate is memoized.  A `load_tools` call with
a populated cache returns the cached aggregate unchanged — same state, no
recomputation, zero connection attempts; `add_servers` extends the server
list and invalidates the cache; and the next `load_tools` after
`add_servers` recomputes the aggregate by a fresh pass (`loadPass`) over
the updated server list and re-memoizes its result. -/
theorem tool_cache_memoization (st : MCPState)
    (env env' : String → ConnectOutcome) (now now' : Nat)
    (c : List Json × List (String × RemoteWrapper))
    (hc : st.tool_cache = some c) (new : List ServerCfg) :
    load_tools st env now
      = { schemas := c.1, mappings := c.2, state := st, attempts := [] } ∧
    (add_servers st new).servers = st.servers ++ new ∧
    (add_servers st new).tool_cache = none ∧
    (st.servers ++ new ≠ [] →
      load_tools (add_servers st new) env' now'
        = { schemas := (loadPass (add_servers st new) env' now').schemas,
            mappings := (loadPass (add_servers st new) env' now').mappings,
            state := { servers := st.servers ++ new,
                       tool_cache := some
                         ((loadPass (add_servers st new) env' now').schemas,
                          (loadPass (add_servers st new) env' now').mappings),
                       failure_counts :=
                         (loadPass (add_servers st new) env' now').counts,
                       skip_until :=
                         (loadPass (add_servers st new) env' now').skip,
                       failure_threshold := st.failure_threshold,
                       backoff_seconds := st.backoff_seconds },
            attempts := (loadPass (add_servers st new) env' now').attempts }) := by
  refine ⟨?_, rfl, rfl, ?_⟩
  · simp [load_tools, hc]
  · intro hne
    simp [load_tools, add_servers, hne]

/-- Witness for `tool_cache_memoization` on a one-server cached state. -/
theorem tool_cache_memoization_witness :
    stCachedW.tool_cache = some ([Json.obj []], [("t", ⟨"s1", "t"⟩)]) ∧
    (load_tools stCachedW envRefuse 0
      = { schemas := [Json.obj []], mappings := [("t", ⟨"s1", "t"⟩)],
          state := stCachedW, attempts := [] } ∧
     (add_servers stCachedW [⟨"s2"⟩]).servers = stCachedW.servers ++ [⟨"s2"⟩] ∧
     (add_servers stCachedW [⟨"s2"⟩]).tool_cache = none ∧
     (stCachedW.servers ++ [⟨"s2"⟩] ≠ [] →
      load_tools (add_servers stCachedW [⟨"s2"⟩]) envRefuse 7
        = { schemas := (loadPass (add_servers stCachedW [⟨"s2"⟩]) envRefuse 7).schemas,
            mappings := (loadPass (add_servers stCachedW [⟨"s2"⟩]) envRefuse 7).mappings,
            state := { servers := stCachedW.servers ++ [⟨"s2"⟩],
                       tool_cache := some
                         ((loadPass (add_servers stCachedW [⟨"s2"⟩]) envRefuse 7).schemas,
                          (loadPass (add_servers stCachedW [⟨"s2"⟩]) envRefuse 7).mappings),
                       failure_counts :=
                         (loadPass (add_servers stCachedW [⟨"s2"⟩]) envRefuse 7).counts,
                       skip_until :=
                         (loadPass (add_servers stCachedW [⟨"s2"⟩]) envRefuse 7).skip,
                       failure_threshold := stCachedW.failure_threshold,
                       backoff_seconds := stCachedW.backoff_seconds },
            attempts := (loadPass (add_servers stCachedW [⟨"s2"⟩]) envRefuse 7).attempts })) :=
  ⟨rfl, tool_cache_memoization stCachedW envRefuse envRefuse 0 7 _ rfl [⟨"s2"⟩]⟩

/-- A connection attempt for a server with a different id leaves that
id's failure-count and cooldown entries, and its presence in the attempt
log, unchanged. -/
theorem attemptServer_other_sid (th bo now : Nat)
    (env : String → ConnectOutcome) (acc : LoadAcc) (s : ServerCfg)
    (sid : String) (h : s.sid ≠ sid) :
    ((attemptServer th bo now env acc s).skip.lookup sid
        = acc.skip.lookup sid) ∧
    ((attemptServer th bo now env acc s).counts.lookup sid
        = acc.counts.lookup sid) ∧
    (sid ∈ (attemptServer th bo now env acc s).attempts ↔
        sid ∈ acc.attempts) := by
  have hne : sid ≠ s.sid := fun hh => h hh.symm
  unfold attemptServer
  rcases henv : env s.sid with e | e | decls
  · by_cases hth : th ≤ (acc.counts.lookup s.sid).getD 0 + 1 <;>
      simp [hth, lookup_dictInsert, hne]
  · simp [hne]
  · rcases hld : loadDecls s.sid acc.schemas acc.mappings decls with
      ⟨schemas', mappings', dup⟩
    by_cases hdup : dup = true <;>
      simp [hld, hdup, lookup_dictRemove_ne _ _ _ hne, hne]

/-- Processing a server with a different id leaves that id's tables and
attempt-log membership unchanged. -/
theorem processServer_other_sid (th bo now : Nat)
    (env : String → ConnectOutcome) (acc : LoadAcc) (s : ServerCfg)
    (sid : String) (h : s.sid ≠ sid) :
    ((processServer th bo now env acc s).skip.lookup sid
        = acc.skip.lookup sid) ∧
    ((processServer th bo now env acc s).counts.lookup sid
        = acc.counts.lookup sid) ∧
    (sid ∈ (processServer th bo now env acc s).attempts ↔
        sid ∈ acc.attempts) := by
  unfold processServer
  rcases hsk : acc.skip.lookup s.sid with _ | ts
  · exact attemptServer_other_sid th bo now env acc s sid h
  · dsimp only
    by_cases hts : ts ≠ 0 ∧ now < ts
    · simp [hts]
    · rw [if_neg hts]
      exact attemptServer_other_sid th bo now env acc s sid h

/-- A fold invariant for the per-server pass. -/
theorem foldl_preserve {α β : Type} (f : α → β → α) (P : α → Prop)
    (hstep : ∀ a b, P a → P (f a b)) :
    ∀ (l : List β) (a : α), P a → P (l.foldl f a) := by
  intro l
  induction l with
  | nil => intro a h; exact h
  | cons x xs ih => intro a h; exact ih (f a x) (hstep a x h)

/-- An active cooldown for `sid` survives the processing of any server,
and `sid` is never added to the attempt log: the server with that id hits
the cooldown gate, and other servers touch only their own entries. -/
theorem processServer_cooldown_preserved (th bo now : Nat)
    (env : String → ConnectOutcome) (acc : LoadAcc) (s : ServerCfg)
    (sid : String)
    (hP : cooldownActive acc.skip sid now ∧ sid ∉ acc.attempts) :
    cooldownActive (processServer th bo now env acc s).skip sid now ∧
      sid ∉ (processServer th bo now env acc s).attempts := by
  by_cases h : s.sid = sid
  · obtain ⟨⟨ts, hts, h0, hlt⟩, hna⟩ := hP
    unfold processServer
    rw [h, hts]
    dsimp only
    rw [if_pos ⟨h0, hlt⟩]
    exact ⟨⟨ts, hts, h0, hlt⟩, hna⟩
  · obtain ⟨⟨ts, hts, h0, hlt⟩, hna⟩ := hP
    obtain ⟨hsk, hcnt, hat⟩ := processServer_other_sid th bo now env acc s sid h
    exact ⟨⟨ts, hsk ▸ hts, h0, hlt⟩, fun hm => hna (hat.mp hm)⟩

/-- A connection attempt always logs the server's id. -/
theorem attemptServer_attempts_eq (th bo now : Nat)
    (env : String → ConnectOutcome) (acc : LoadAcc) (s : ServerCfg) :
    (attemptServer th bo now env acc s).attempts
      = acc.attempts ++ [s.sid] := by
  unfold attemptServer
  rcases henv : env s.sid with e | e | decls
  · by_cases hth : th ≤ (acc.counts.lookup s.sid).getD 0 + 1 <;>
      simp [hth]
  · rfl
  · rcases hld : loadDecls s.sid acc.schemas acc.mappings decls with
      ⟨schemas', mappings', dup⟩
    by_cases hdup : dup = true <;> simp [hld, hdup]

/-- The attempt log only grows. -/
theorem processServer_attempts_mono (th bo now : Nat)
    (env : String → ConnectOutcome) (acc : LoadAcc) (s : ServerCfg)
    (sid : String) (h : sid ∈ acc.attempts) :
    sid ∈ (processServer th bo now env acc s).attempts := by
  by_cases hs : s.sid = sid
  · unfold processServer
    rcases hsk : acc.skip.lookup s.sid with _ | ts
    · rw [attemptServer_attempts_eq]
      exact List.mem_append_left _ h
    · dsimp only
      by_cases hts : ts ≠ 0 ∧ now < ts
      · rw [if_pos hts]; exact h
      · rw [if_neg hts, attemptServer_attempts_eq]
        exact List.mem_append_left _ h
  · exact (processServer_other_sid th bo now env acc s sid hs).2.2.mpr h

/-- A server whose cooldown gate is open when it is processed gets a
connection attempt. -/
theorem processServer_attempts_self (th bo now : Nat)
    (env : String → ConnectOutcome) (acc : LoadAcc) (s : ServerCfg)
    (hnc : ¬ cooldownActive acc.skip s.sid now) :
    s.sid ∈ (processServer th bo now env acc s).attempts := by
  unfold processServer
  rcases hsk : acc.skip.lookup s.sid with _ | ts
  · rw [attemptServer_attempts_eq]
    exact List.mem_append_right _ (List.mem_singleton.mpr rfl)
  · dsimp only
    by_cases hts : ts ≠ 0 ∧ now < ts
    · exact absurd ⟨ts, hsk, hts.1, hts.2⟩ hnc
    · rw [if_neg hts, attemptServer_attempts_eq]
      exact List.mem_append_right _ (List.mem_singleton.mpr rfl)

/-- During a fresh pass, a listed server without an active cooldown is
attempted. -/
theorem loadPass_attempts_of_mem (th bo now : Nat)
    (env : String → ConnectOutcome) (sid : String) :
    ∀ (servers : List ServerCfg) (acc : LoadAcc),
      (⟨sid⟩ : ServerCfg) ∈ servers →
      (sid ∈ acc.attempts ∨ ¬ cooldownActive acc.skip sid now) →
      sid ∈ (servers.foldl (processServer th bo now env) acc).attempts := by
  intro servers
  induction servers with
  | nil => intro acc hmem; exact absurd hmem (List.not_mem_nil _)
  | cons s rest ih =>
      intro acc hmem hP
      by_cases hs : s = ⟨sid⟩
      · subst hs
        simp only [List.foldl_cons]
        have hstart : sid ∈ (processServer th bo now env acc ⟨sid⟩).attempts := by
          rcases hP with hin | hnc
          · exact processServer_attempts_mono th bo now env acc ⟨sid⟩ sid hin
          · exact processServer_attempts_self th bo now env acc ⟨sid⟩ hnc
        exact foldl_preserve _ (fun a => sid ∈ a.attempts)
          (fun a b hb => processServer_attempts_mono th bo now env a b sid hb)
          rest _ hstart
      · have hmem' : (⟨sid⟩ : ServerCfg) ∈ rest := by
          rcases List.mem_cons.mp hmem with h1 | h2
          · exact absurd h1.symm hs
          · exact h2
        have hsid : s.sid ≠ sid := by
          intro hh
          apply hs
          cases s
          simpa using hh
        obtain ⟨hsk, hcnt, hat⟩ := processServer_other_sid th bo now env acc s sid hsid
        simp only [List.foldl_cons]
        apply ih _ hmem'
        rcases hP with hin | hnc
        · exact Or.inl (hat.mpr hin)
        · refine Or.inr ?_
          intro ⟨ts, hts, h0, hlt⟩
          exact hnc ⟨ts, hsk ▸ hts, h0, hlt⟩

/-- The threshold-reaching connection failure sets the cooldown deadline
to `now + backoff`. -/
theorem attemptServer_threshold (th bo now : Nat)
    (env : String → ConnectOutcome) (acc : LoadAcc) (s : ServerCfg)
    (e : String) (hcf : env s.sid = .connectFail e)
    (hcnt : th ≤ (acc.counts.lookup s.sid).getD 0 + 1) :
    (attemptServer th bo now env acc s).skip.lookup s.sid
      = some (now + bo) := by
  unfold attemptServer
  rw [hcf]
  dsimp only
  rw [if_pos hcnt]
  simp [lookup_dictInsert]

/-- A pass over servers with other ids leaves an id's tables unchanged. -/
theorem fold_preserves_lookup (th bo now : Nat)
    (env : String → ConnectOutcome) (sid : String) :
    ∀ (servers : List ServerCfg) (acc : LoadAcc),
      (∀ s ∈ servers, s.sid ≠ sid) →
      ((servers.foldl (processServer th bo now env) acc).skip.lookup sid
          = acc.skip.lookup sid) ∧
      ((servers.foldl (processServer th bo now env) acc).counts.lookup sid
          = acc.counts.lookup sid) := by
  intro servers
  induction servers with
  | nil => intro acc _; exact ⟨rfl, rfl⟩
  | cons s rest ih =>
      intro acc hall
      have hs : s.sid ≠ sid := hall s (List.mem_cons_self _ _)
      obtain ⟨hsk, hcnt, _⟩ := processServer_other_sid th bo now env acc s sid hs
      obtain ⟨ih1, ih2⟩ := ih (processServer th bo now env acc s)
        (fun s' hs' => hall s' (List.mem_cons_of_mem _ hs'))
      simp only [List.foldl_cons]
      exact ⟨ih1.trans hsk, ih2.trans hcnt⟩

/-- During a fresh pass with pairwise-distinct server ids, a listed
server at `failure_threshold - 1` consecutive failures whose connection
fails again ends the pass with its cooldown set to `now + backoff`. -/
theorem loadPass_threshold (th bo now : Nat)
    (env : String → ConnectOutcome) (sid : String) (e : String)
    (hth : 1 ≤ th) (henv : env sid = .connectFail e) :
    ∀ (servers : List ServerCfg) (acc : LoadAcc),
      (servers.map ServerCfg.sid).Nodup →
      (⟨sid⟩ : ServerCfg) ∈ servers →
      ¬ cooldownActive acc.skip sid now →
      acc.counts.lookup sid = some (th - 1) →
      (servers.foldl (processServer th bo now env) acc).skip.lookup sid
        = some (now + bo) := by
  intro servers
  induction servers with
  | nil => intro acc _ hmem; exact absurd hmem (List.not_mem_nil _)
  | cons s rest ih =>
      intro acc hnd hmem hnc hcnt
      simp only [List.foldl_cons]
      by_cases hs : s = ⟨sid⟩
      · subst hs
        have hafter : (processServer th bo now env acc ⟨sid⟩).skip.lookup sid
            = some (now + bo) := by
          unfold processServer
          rcases hsk : acc.skip.lookup sid with _ | ts
          · exact attemptServer_threshold th bo now env acc ⟨sid⟩ e henv
              (by rw [hcnt]; simp; omega)
          · dsimp only
            by_cases hts : ts ≠ 0 ∧ now < ts
            · exact absurd ⟨ts, hsk, hts.1, hts.2⟩ hnc
            · rw [if_neg hts]
              exact attemptServer_threshold th bo now env acc ⟨sid⟩ e henv
                (by rw [hcnt]; simp; omega)
        have hrest : ∀ s' ∈ rest, s'.sid ≠ sid := by
          intro s' hs' hh
          have : sid ∈ rest.map ServerCfg.sid := hh ▸ List.mem_map_of_mem _ hs'
          simp only [List.map_cons, List.nodup_cons] at hnd
          exact hnd.1 this
        exact (fold_preserves_lookup th bo now env sid rest _ hrest).1.trans hafter
      · have hsid : s.sid ≠ sid := by
          intro hh
          apply hs
          cases s
          simpa using hh
        have hmem' : (⟨sid⟩ : ServerCfg) ∈ rest := by
          rcases List.mem_cons.mp hmem with h1 | h2
          · exact absurd h1.symm hs
          · exact h2
        obtain ⟨hsk, hcnt', _⟩ := processServer_other_sid th bo now env acc s sid hsid
        refine ih _ ?_ hmem' ?_ ?_
        · simp only [List.map_cons, List.nodup_cons] at hnd
          exact hnd.2
        · intro ⟨ts, hts, h0, hlt⟩
          exact hnc ⟨ts, hsk ▸ hts, h0, hlt⟩
        · exact hcnt'.trans hcnt

/-- C6 amended: (1) a server whose cooldown deadline is in the future is
never connected to by any load, whatever the cache state; (2) a load
with a COLD cache attempts every listed server whose cooldown is absent,
zero, or expired — so a load after the backoff window retries the server
provided the cache has been invalidated since (a load served from the
warm cache, as `warm_cache_no_retry_after_backoff` shows, makes no
connection attempts at all); (3) the `failure_threshold`-th consecutive
connection failure starts the backoff window: the load's final state
carries cooldown deadline `now + backoff_seconds` for that server. -/
theorem backoff_skip_and_cold_cache_retry (st : MCPState)
    (env : String → ConnectOutcome) (now : Nat) (sid : String) :
    (cooldownActive st.skip_until sid now →
        sid ∉ (load_tools st env now).attempts) ∧
    (st.tool_cache = none → (⟨sid⟩ : ServerCfg) ∈ st.servers →
        ¬ cooldownActive st.skip_until sid now →
        sid ∈ (load_tools st env now).attempts) ∧
    (∀ e, st.tool_cache = none →
        (st.servers.map ServerCfg.sid).Nodup →
        (⟨sid⟩ : ServerCfg) ∈ st.servers →
        ¬ cooldownActive st.skip_until sid now →
        env sid = .connectFail e →
        st.failure_counts.lookup sid = some (st.failure_threshold - 1) →
        1 ≤ st.failure_threshold →
        (load_tools st env now).state.skip_until.lookup sid
          = some (now + st.backoff_seconds)) := by
  refine ⟨?_, ?_, ?_⟩
  · intro hca
    rcases hc : st.tool_cache with _ | c
    · by_cases hsrv : st.servers = []
      · simp [load_tools, hc, hsrv]
      · simp only [load_tools, hc]
        rw [if_neg hsrv]
        dsimp only
        have hfin := foldl_preserve
          (processServer st.failure_threshold st.backoff_seconds now env)
          (fun a => cooldownActive a.skip sid now ∧ sid ∉ a.attempts)
          (fun a b hb => processServer_cooldown_preserved
            st.failure_threshold st.backoff_seconds now env a b sid hb)
          st.servers
          { schemas := [], mappings := [], counts := st.failure_counts,
            skip := st.skip_until, attempts := [] }
          ⟨hca, List.not_mem_nil _⟩
        exact hfin.2
    · simp [load_tools, hc]
  · intro hc hmem hnc
    have hsrv : st.servers ≠ [] := by
      intro h; rw [h] at hmem; exact absurd hmem (List.not_mem_nil _)
    simp only [load_tools, hc]
    rw [if_neg hsrv]
    dsimp only
    exact loadPass_attempts_of_mem st.failure_threshold st.backoff_seconds now
      env sid st.servers _ hmem (Or.inr hnc)
  · intro e hc hnd hmem hnc henv hcnt hth
    have hsrv : st.servers ≠ [] := by
      intro h; rw [h] at hmem; exact absurd hmem (List.not_mem_nil _)
    simp only [load_tools, hc]
    rw [if_neg hsrv]
    dsimp only
    exact loadPass_threshold st.failure_threshold st.backoff_seconds now env
      sid e hth henv st.servers _ hnd hmem hnc hcnt

/-- C6 counterexample: `load_tools` memoizes its aggregate even when the
load failed, so a load performed AFTER the backoff window has elapsed
(cooldown deadline 10, current time 100) makes zero connection attempts
when the cache is warm — the server is not retried, contradicting the
claim's unconditional "a load performed after the backoff window has
elapsed attempts to connect to it again". -/
theorem warm_cache_no_retry_after_backoff :
    (10 : Nat) < 100 ∧
    stWarmCache.servers = [⟨"s1"⟩] ∧
    stWarmCache.skip_until.lookup "s1" = some 10 ∧
    (load_tools stWarmCache envRefuse 100).attempts = [] ∧
    (load_tools stWarmCache envRefuse 100).state = stWarmCache :=
  ⟨by omega, rfl, rfl, rfl, rfl⟩

/-- Witness for `backoff_skip_and_cold_cache_retry`: server `s1` cooling
down until 70 is skipped at time 10; with the cooldown expired (10 < 100)
and a cold cache it is attempted again; and at two prior failures with
threshold three, a third refused connection sets the cooldown to
`100 + 60`. -/
theorem backoff_skip_and_cold_cache_retry_witness :
    cooldownActive stCooling.skip_until "s1" 10 ∧
    "s1" ∉ (load_tools stCooling envRefuse 10).attempts ∧
    "s1" ∈ (load_tools stExpired envRefuse 100).attempts ∧
    (load_tools stAtThreshold envRefuse 100).state.skip_until.lookup "s1"
      = some (100 + 60) := by
  refine ⟨⟨70, rfl, by omega, by omega⟩, ?_, ?_, ?_⟩
  · exact (backoff_skip_and_cold_cache_retry stCooling
      envRefuse 10 "s1").1 ⟨70, rfl, by omega, by omega⟩
  · exact (backoff_skip_and_cold_cache_retry stExpired
      envRefuse 100 "s1").2.1 rfl
      (List.mem_singleton.mpr rfl)
      (by rintro ⟨ts, hts, h0, hlt⟩
          have h10 : stExpired.skip_until.lookup "s1" = some 10 := rfl
          rw [h10] at hts
          injection hts with h
          omega)
  · exact (backoff_skip_and_cold_cache_retry stAtThreshold
      envRefuse 100 "s1").2.2 "refused" rfl
      (by simp [stAtThreshold])
      (List.mem_singleton.mpr rfl)
      (by rintro ⟨ts, hts, h0, hlt⟩
          have hnone : stAtThreshold.skip_until.lookup "s1" = none := rfl
          rw [hnone] at hts
          exact Option.noConfusion hts)
      rfl rfl (by decide)
